import Mathlib

/-!
Verification of the airflow-postgres-to-s3 pipeline repository.

The development shallowly embeds the two source files:
* `plugins/custom_operator/postgres_to_s3_operator.py` — the
  `PostgresToS3Operator.execute` method: run a query, serialize the result
  set to CSV with Python's `csv.writer` (`QUOTE_MINIMAL`, line terminator
  `"\n"`), and upload the buffer to S3 with `replace=True`.
* `dags/airbnb_postgres_to_s3.py` — the DAG helpers `download_csv`,
  `preprocess_csv`, `load_csv_to_postgres`, and the `create_table` /
  `COPY` column lists.

The CSV writer model below reproduces the behaviour of CPython's `_csv`
writer for the dialect used by the operator (delimiter `','`, quote char
`'"'`, `QUOTE_MINIMAL`, `lineterminator="\n"`, no escape char):
* a field is quoted iff it contains the delimiter, the quote char, or a
  character of the line terminator (so a bare carriage return does NOT
  trigger quoting, since the terminator is just `"\n"`);
* quote characters inside a quoted field are doubled;
* a row consisting of a single empty field is written as `""` (CPython
  special-cases this so the row is not confused with an empty row);
* each row is terminated by exactly one `'\n'`.

The CSV reader model reproduces Python's `csv.reader` (the conformant
reader for files produced by `csv.writer`): records end at `'\n'`, `'\r'`
or `"\r\n"`; a blank line is the empty record; quoted fields may contain
any character, with `""` read back as a literal quote; a quote character
inside an unquoted field, or text after a closing quote that is not a
separator, is rejected.
-/

/-- True iff Python's `csv.writer` with `QUOTE_MINIMAL`, delimiter `','`,
quote char `'"'` and line terminator `"\n"` must quote the field: the field
contains the delimiter, the quote character, or the line-feed terminator. -/
def needsQuote (s : String) : Bool :=
  s.data.any (fun c => c = ',' || c = '"' || c = '\n')

/-- Double every quote character, as `csv.writer` does inside a quoted field. -/
def escapeQuotes : List Char → List Char
  | [] => []
  | c :: cs => if c = '"' then '"' :: '"' :: escapeQuotes cs else c :: escapeQuotes cs

/-- Serialization of one field by `csv.writer` under `QUOTE_MINIMAL`:
quoted (with inner quotes doubled) iff `needsQuote` holds, otherwise
written verbatim. -/
def encodeField (s : String) : String :=
  if needsQuote s then String.mk ('"' :: (escapeQuotes s.data ++ ['"'])) else s

/-- The body of a serialized row: the encoded fields joined by the
delimiter `','`. -/
def encodeFieldsBody : List String → List Char
  | [] => []
  | [s] => (encodeField s).data
  | s :: rest => (encodeField s).data ++ ',' :: encodeFieldsBody rest

/-- One `csv_writer.writerow(r)` call: the joined encoded fields followed
by the single line terminator `'\n'`.  A row that is a single empty field
is written `""` (CPython's special case, so that the row stays
distinguishable from an empty row). -/
def encodeRowChars (r : List String) : List Char :=
  (if r = [""] then ['"', '"'] else encodeFieldsBody r) ++ ['\n']

/-- `writerow` as a string. -/
def encodeRow (r : List String) : String :=
  String.mk (encodeRowChars r)

/-- The character stream produced by `csv_writer.writerow(headers)`
followed by `csv_writer.writerows(rows)` in
`PostgresToS3Operator.execute`. -/
def serializeCSVChars (headers : List String) (rows : List (List String)) : List Char :=
  ((headers :: rows).map encodeRowChars).flatten

/-- The full string buffer (`data_buffer.getvalue()`) that the operator
uploads: header row first, then every data row. -/
def serializeCSV (headers : List String) (rows : List (List String)) : String :=
  String.mk (serializeCSVChars headers rows)

/-- What ends a CSV field: the delimiter, an end-of-record, or the end of
the input. -/
inductive CSVSep where
  | comma
  | nl
  | eof
deriving DecidableEq, Inhabited

/-- Scan the inside of a quoted field: consume up to the closing quote,
reading a doubled quote as a literal quote character.  Returns the field
content and the input after the closing quote; fails if the input ends
before the quote is closed. -/
def scanQuoted : List Char → Option (List Char × List Char)
  | [] => none
  | c :: rest =>
    if c = '"' then
      match rest with
      | [] => some ([], [])
      | c2 :: rest2 =>
        if c2 = '"' then (scanQuoted rest2).map (fun p => ('"' :: p.1, p.2))
        else some ([], rest)
    else (scanQuoted rest).map (fun p => (c :: p.1, p.2))

/-- After a closing quote the reader accepts only a delimiter, an
end-of-record (`'\n'`, `'\r'` or `"\r\n"`), or end of input. -/
def parseSep : List Char → Option (CSVSep × List Char)
  | [] => some (CSVSep.eof, [])
  | c :: rest =>
    if c = ',' then some (CSVSep.comma, rest)
    else if c = '\n' then some (CSVSep.nl, rest)
    else if c = '\r' then
      match rest with
      | [] => some (CSVSep.nl, [])
      | c2 :: rest2 => if c2 = '\n' then some (CSVSep.nl, rest2) else some (CSVSep.nl, rest)
    else none

/-- Scan an unquoted field: everything up to a delimiter, an end-of-record
or end of input.  A quote character inside an unquoted field is rejected. -/
def parseUnquoted : List Char → Option (List Char × CSVSep × List Char)
  | [] => some ([], CSVSep.eof, [])
  | c :: rest =>
    if c = ',' then some ([], CSVSep.comma, rest)
    else if c = '\n' then some ([], CSVSep.nl, rest)
    else if c = '\r' then
      match rest with
      | [] => some ([], CSVSep.nl, [])
      | c2 :: rest2 => if c2 = '\n' then some ([], CSVSep.nl, rest2) else some ([], CSVSep.nl, rest)
    else if c = '"' then none
    else (parseUnquoted rest).map (fun p => (c :: p.1, p.2.1, p.2.2))

/-- Read one field, quoted or unquoted, together with what ended it. -/
def parseField : List Char → Option (String × CSVSep × List Char)
  | [] => some ("", CSVSep.eof, [])
  | c :: rest =>
    if c = '"' then
      match scanQuoted rest with
      | none => none
      | some (content, rest2) =>
        match parseSep rest2 with
        | none => none
        | some (sep, rest3) => some (String.mk content, sep, rest3)
    else (parseUnquoted (c :: rest)).map (fun p => (String.mk p.1, p.2.1, p.2.2))

/-- Read the fields of one record (at least one field); `fuel` bounds the
number of fields. -/
def parseFields (fuel : Nat) (cs : List Char) : Option (List String × List Char) :=
  match fuel with
  | 0 => none
  | f + 1 =>
    match parseField cs with
    | none => none
    | some (fld, sep, rest) =>
      match sep with
      | CSVSep.comma => (parseFields f rest).map (fun p => (fld :: p.1, p.2))
      | _ => some ([fld], rest)

/-- Read all records.  A blank line is the empty record (Python's
`csv.reader` yields `[]` for it); `fuel` bounds the number of records. -/
def parseRecords (fuel : Nat) (cs : List Char) : Option (List (List String)) :=
  match fuel with
  | 0 => none
  | f + 1 =>
    match cs with
    | [] => some []
    | c :: rest =>
      if c = '\n' then (parseRecords f rest).map (fun rs => [] :: rs)
      else if c = '\r' then
        match rest with
        | [] => (parseRecords f []).map (fun rs => [] :: rs)
        | c2 :: rest2 =>
          if c2 = '\n' then (parseRecords f rest2).map (fun rs => [] :: rs)
          else (parseRecords f rest).map (fun rs => [] :: rs)
      else
        match parseFields (cs.length + 1) cs with
        | none => none
        | some (fs, rest2) => (parseRecords f rest2).map (fun rs => fs :: rs)

/-- A conformant CSV reader (Python's `csv.reader` on a correctly opened
file): the list of records of the byte string, or `none` if the input is
not well-formed CSV. -/
def parseCSV (s : String) : Option (List (List String)) :=
  parseRecords (s.data.length + 1) s.data

/-- A field value survives the serialize/parse round trip only when any
carriage return it contains is accompanied by a character that forces
quoting; a bare `'\r'` is written unquoted and then read as an
end-of-record. -/
def fieldOk (s : String) : Prop :=
  '\r' ∈ s.data → needsQuote s = true

instance (s : String) : Decidable (fieldOk s) := by
  unfold fieldOk
  infer_instance

theorem scanQuoted_escape (cs : List Char) :
    ∀ rest : List Char, rest.head? ≠ some '"' →
      scanQuoted (escapeQuotes cs ++ '"' :: rest) = some (cs, rest) := by
  induction cs with
  | nil =>
    intro rest h
    cases rest with
    | nil => simp [escapeQuotes, scanQuoted]
    | cons c2 r2 =>
      have hc2 : ¬ c2 = '"' := by
        intro he
        exact h (by simp [he])
      simp [escapeQuotes, scanQuoted, hc2]
  | cons c cs ih =>
    intro rest h
    by_cases hc : c = '"'
    · subst hc
      simp only [escapeQuotes, if_pos rfl, List.cons_append]
      rw [scanQuoted.eq_def]
      simp [ih rest h]
    · simp only [escapeQuotes, if_neg hc, List.cons_append]
      rw [scanQuoted.eq_def]
      simp [hc, ih rest h]

theorem parseUnquoted_plain (cs : List Char)
    (hplain : ∀ c ∈ cs, ¬ c = ',' ∧ ¬ c = '\n' ∧ ¬ c = '\r' ∧ ¬ c = '"') :
    ∀ (c0 : Char) (tail : List Char), c0 = ',' ∨ c0 = '\n' →
      parseUnquoted (cs ++ c0 :: tail)
        = some (cs, (if c0 = ',' then CSVSep.comma else CSVSep.nl), tail) := by
  induction cs with
  | nil =>
    intro c0 tail h0
    rcases h0 with h | h <;> subst h <;> simp [parseUnquoted]
  | cons c cs ih =>
    intro c0 tail h0
    obtain ⟨h1, h2, h3, h4⟩ := hplain c (by simp)
    have ih' := ih (fun x hx => hplain x (by simp [hx])) c0 tail h0
    simp [parseUnquoted, h1, h2, h3, h4, ih']

theorem plain_of_not_needsQuote (s : String) (hq : ¬ needsQuote s = true) (hok : fieldOk s) :
    ∀ c ∈ s.data, ¬ c = ',' ∧ ¬ c = '\n' ∧ ¬ c = '\r' ∧ ¬ c = '"' := by
  have hq' : ∀ c ∈ s.data, (¬ c = ',' ∧ ¬ c = '"') ∧ ¬ c = '\n' := by
    simpa [needsQuote] using hq
  intro c hc
  obtain ⟨⟨h1, h2⟩, h3⟩ := hq' c hc
  refine ⟨h1, h3, ?_, h2⟩
  intro hr
  subst hr
  exact hq (hok hc)

theorem parseField_encode (s : String) (hok : fieldOk s) (c0 : Char) (tail : List Char)
    (h0 : c0 = ',' ∨ c0 = '\n') :
    parseField ((encodeField s).data ++ c0 :: tail)
      = some (s, (if c0 = ',' then CSVSep.comma else CSVSep.nl), tail) := by
  have hc0q : ¬ c0 = '"' := by
    rcases h0 with h | h <;> subst h <;> decide
  have hsep : parseSep (c0 :: tail) = some ((if c0 = ',' then CSVSep.comma else CSVSep.nl), tail) := by
    rcases h0 with h | h <;> subst h <;> simp [parseSep]
  by_cases hq : needsQuote s = true
  · have hrw : (encodeField s).data ++ c0 :: tail
        = '"' :: (escapeQuotes s.data ++ '"' :: (c0 :: tail)) := by
      simp [encodeField, hq]
    have hhd : (c0 :: tail).head? ≠ some '"' := by simp [hc0q]
    rw [hrw, parseField.eq_def]
    simp [scanQuoted_escape s.data (c0 :: tail) hhd, hsep]
  · have hplain := plain_of_not_needsQuote s hq hok
    have hdata : (encodeField s).data = s.data := by simp [encodeField, hq]
    rw [hdata]
    have hun := parseUnquoted_plain s.data hplain c0 tail h0
    cases hl : s.data with
    | nil =>
      have hs : s = "" := by
        cases s
        simp only [] at hl
        simp [hl]
      subst hs
      simp only [List.nil_append] at hun ⊢
      rw [parseField.eq_def]
      simp [hc0q, hun]
    | cons c l2 =>
      have hcq : ¬ c = '"' := (hplain c (by rw [hl]; simp)).2.2.2
      rw [hl] at hun
      rw [List.cons_append, parseField.eq_def]
      simp only [hcq, if_neg hcq]
      simp
      exact ⟨c :: l2, by simpa using hun, by rw [← hl]⟩

theorem parseFields_succ (f : Nat) (cs : List Char) :
    parseFields (f + 1) cs =
      match parseField cs with
      | none => none
      | some (fld, sep, rest) =>
        match sep with
        | CSVSep.comma => (parseFields f rest).map (fun p => (fld :: p.1, p.2))
        | _ => some ([fld], rest) := rfl

theorem parseRecords_succ (f : Nat) (cs : List Char) :
    parseRecords (f + 1) cs =
      match cs with
      | [] => some []
      | c :: rest =>
        if c = '\n' then (parseRecords f rest).map (fun rs => [] :: rs)
        else if c = '\r' then
          match rest with
          | [] => (parseRecords f []).map (fun rs => [] :: rs)
          | c2 :: rest2 =>
            if c2 = '\n' then (parseRecords f rest2).map (fun rs => [] :: rs)
            else (parseRecords f rest).map (fun rs => [] :: rs)
        else
          match parseFields (cs.length + 1) cs with
          | none => none
          | some (fs, rest2) => (parseRecords f rest2).map (fun rs => fs :: rs) := rfl

theorem encodeFieldsBody_length (r : List String) : r.length ≤ (encodeFieldsBody r).length + 1 := by
  induction r with
  | nil => simp [encodeFieldsBody]
  | cons s r ih =>
    cases r with
    | nil => simp [encodeFieldsBody]
    | cons s2 r2 =>
      simp only [encodeFieldsBody, List.length_append, List.length_cons] at ih ⊢
      omega

theorem parseFields_encode :
    ∀ (r : List String), ¬ r = [] → (∀ s ∈ r, fieldOk s) →
      ∀ (fuel : Nat) (tail : List Char), r.length ≤ fuel →
        parseFields fuel (encodeFieldsBody r ++ '\n' :: tail) = some (r, tail) := by
  intro r
  induction r with
  | nil => intro h; exact absurd rfl h
  | cons s r ih =>
    intro _ hok fuel tail hfuel
    obtain ⟨f, rfl⟩ : ∃ f, fuel = f + 1 := by
      simp only [List.length_cons] at hfuel
      exact ⟨fuel - 1, by omega⟩
    cases r with
    | nil =>
      have hf := parseField_encode s (hok s (by simp)) '\n' tail (Or.inr rfl)
      simp only [encodeFieldsBody]
      rw [parseFields_succ]
      simp [hf]
    | cons s2 r2 =>
      have hf := parseField_encode s (hok s (by simp)) ','
        (encodeFieldsBody (s2 :: r2) ++ '\n' :: tail) (Or.inl rfl)
      have ih' := ih (by simp) (fun x hx => hok x (by simp [hx])) f tail
        (by simp only [List.length_cons] at hfuel ⊢; omega)
      simp only [encodeFieldsBody, List.append_assoc, List.cons_append]
      rw [parseFields_succ]
      simp [hf, ih']

theorem encodeField_head (s : String) (hs : ¬ s = "") (hok : fieldOk s) :
    ∃ c cs, (encodeField s).data = c :: cs ∧ ¬ c = '\n' ∧ ¬ c = '\r' := by
  by_cases hq : needsQuote s = true
  · exact ⟨'"', escapeQuotes s.data ++ ['"'], by simp [encodeField, hq], by decide, by decide⟩
  · have hplain := plain_of_not_needsQuote s hq hok
    have hdata : (encodeField s).data = s.data := by simp [encodeField, hq]
    cases hl : s.data with
    | nil =>
      exfalso
      apply hs
      cases s
      simp only [] at hl
      simp [hl]
    | cons c l2 =>
      obtain ⟨h1, h2, h3, h4⟩ := hplain c (by rw [hl]; simp)
      exact ⟨c, l2, by rw [hdata, hl], h2, h3⟩

theorem encodeFieldsBody_head (r : List String) (hr : ¬ r = []) (hr1 : ¬ r = [""])
    (hok : ∀ s ∈ r, fieldOk s) :
    ∃ c cs, encodeFieldsBody r = c :: cs ∧ ¬ c = '\n' ∧ ¬ c = '\r' := by
  cases r with
  | nil => exact absurd rfl hr
  | cons s r2 =>
    cases r2 with
    | nil =>
      have hs : ¬ s = "" := by
        intro he
        exact hr1 (by rw [he])
      obtain ⟨c, cs, h, h1, h2⟩ := encodeField_head s hs (hok s (by simp))
      exact ⟨c, cs, by simp [encodeFieldsBody, h], h1, h2⟩
    | cons s2 r3 =>
      by_cases hs : s = ""
      · subst hs
        refine ⟨',', encodeFieldsBody (s2 :: r3), ?_, by decide, by decide⟩
        have he : encodeField "" = "" := by decide
        simp [encodeFieldsBody, he]
      · obtain ⟨c, cs, h, h1, h2⟩ := encodeField_head s hs (hok s (by simp))
        refine ⟨c, cs ++ ',' :: encodeFieldsBody (s2 :: r3), ?_, h1, h2⟩
        simp [encodeFieldsBody, h]

theorem parseRecords_encodeRow (r : List String) (hok : ∀ s ∈ r, fieldOk s)
    (f : Nat) (tail : List Char) :
    parseRecords (f + 1) (encodeRowChars r ++ tail)
      = (parseRecords f tail).map (fun rs => r :: rs) := by
  by_cases hempty : r = []
  · subst hempty
    rw [show encodeRowChars [] ++ tail = '\n' :: tail by simp [encodeRowChars, encodeFieldsBody]]
    rw [parseRecords_succ]
    simp
  · by_cases hblank : r = [""]
    · subst hblank
      rw [show encodeRowChars [""] ++ tail = '"' :: '"' :: '\n' :: tail by simp [encodeRowChars]]
      rw [parseRecords_succ]
      have h1 : scanQuoted ('"' :: '\n' :: tail) = some ([], '\n' :: tail) := by
        rw [scanQuoted.eq_def]
        simp
      have h2 : parseField ('"' :: '"' :: '\n' :: tail) = some ("", CSVSep.nl, tail) := by
        rw [parseField.eq_def]
        simp [h1, parseSep]
      rw [parseFields_succ]
      simp [h2]
    · obtain ⟨c, cs, hbody, hc1, hc2⟩ := encodeFieldsBody_head r hempty hblank hok
      have hshape : encodeRowChars r ++ tail = c :: (cs ++ '\n' :: tail) := by
        simp [encodeRowChars, hblank, hbody]
      have hlen : r.length ≤ (encodeFieldsBody r ++ '\n' :: tail).length + 1 := by
        have := encodeFieldsBody_length r
        simp only [List.length_append, List.length_cons]
        omega
      have hfields := parseFields_encode r hempty hok
        ((encodeFieldsBody r ++ '\n' :: tail).length + 1) tail hlen
      rw [hshape, parseRecords_succ]
      simp only [hc1, hc2, if_false, if_neg]
      rw [show c :: (cs ++ '\n' :: tail) = encodeFieldsBody r ++ '\n' :: tail by
        rw [hbody]; simp]
      rw [hfields]

theorem parseRecords_encode (rs : List (List String)) :
    ∀ fuel : Nat, rs.length < fuel → (∀ r ∈ rs, ∀ s ∈ r, fieldOk s) →
      parseRecords fuel ((rs.map encodeRowChars).flatten) = some rs := by
  induction rs with
  | nil =>
    intro fuel hf _
    obtain ⟨f, rfl⟩ : ∃ f, fuel = f + 1 := ⟨fuel - 1, by omega⟩
    rw [parseRecords_succ]
    simp
  | cons r rs ih =>
    intro fuel hf hok
    obtain ⟨f, rfl⟩ : ∃ f, fuel = f + 1 := ⟨fuel - 1, by omega⟩
    rw [List.map_cons, List.flatten_cons,
      parseRecords_encodeRow r (fun s hs => hok r (by simp) s hs) f _]
    rw [ih f (by simp only [List.length_cons] at hf; omega)
      (fun x hx s hs => hok x (by simp [hx]) s hs)]
    rfl

theorem encodeRowChars_pos (r : List String) : 1 ≤ (encodeRowChars r).length := by
  simp [encodeRowChars]

theorem rows_length_le_flatten (rs : List (List String)) :
    rs.length ≤ ((rs.map encodeRowChars).flatten).length := by
  induction rs with
  | nil => simp
  | cons r rs ih =>
    simp only [List.map_cons, List.flatten_cons, List.length_append, List.length_cons]
    have := encodeRowChars_pos r
    omega

/-- The serialize/parse round trip for the operator's CSV dialect: parsing
the uploaded buffer with the conformant reader recovers the header and
every row, provided no field contains a bare carriage return. -/
theorem parseCSV_serializeCSV (headers : List String) (rows : List (List String))
    (hok : ∀ r ∈ headers :: rows, ∀ s ∈ r, fieldOk s) :
    parseCSV (serializeCSV headers rows) = some (headers :: rows) := by
  have hlt : (headers :: rows).length < (serializeCSVChars headers rows).length + 1 := by
    have := rows_length_le_flatten (headers :: rows)
    simp only [serializeCSVChars]
    omega
  exact parseRecords_encode (headers :: rows) ((serializeCSVChars headers rows).length + 1)
    hlt hok

theorem encodeField_head_quote_iff (s : String) :
    (encodeField s).data.head? = some '"' ↔ needsQuote s = true := by
  constructor
  · intro h
    by_contra hq
    rw [show encodeField s = s by simp [encodeField, hq]] at h
    apply hq
    cases hl : s.data with
    | nil => rw [hl] at h; simp at h
    | cons c l2 =>
      rw [hl] at h
      simp at h
      subst h
      have : '"' ∈ s.data := by rw [hl]; simp
      simp [needsQuote]
      exact ⟨'"', this, by simp⟩
  · intro hq
    simp [encodeField, hq]

theorem count_escapeQuotes (c : Char) (hc : ¬ c = '"') (cs : List Char) :
    (escapeQuotes cs).count c = cs.count c := by
  induction cs with
  | nil => simp [escapeQuotes]
  | cons a l ih =>
    by_cases ha : a = '"'
    · subst ha
      have hne : ¬ ('"' : Char) = c := fun he => hc he.symm
      simp [escapeQuotes, List.count_cons, beq_iff_eq, ih, hne]
    · simp only [escapeQuotes, if_neg ha, List.count_cons, ih]

theorem count_nl_encodeField (s : String) (hs : '\n' ∉ s.data) :
    ((encodeField s).data).count '\n' = 0 := by
  have hcount : s.data.count '\n' = 0 := List.count_eq_zero.mpr hs
  by_cases hq : needsQuote s = true
  · rw [show (encodeField s).data = '"' :: (escapeQuotes s.data ++ ['"']) by
      simp [encodeField, hq]]
    simp [List.count_cons, List.count_append,
      count_escapeQuotes '\n' (by decide) s.data, hcount]
  · rw [show encodeField s = s by simp [encodeField, hq]]
    exact hcount

theorem count_nl_encodeFieldsBody (r : List String) (h : ∀ s ∈ r, '\n' ∉ s.data) :
    (encodeFieldsBody r).count '\n' = 0 := by
  induction r with
  | nil => simp [encodeFieldsBody]
  | cons s r2 ih =>
    cases r2 with
    | nil =>
      simp only [encodeFieldsBody]
      exact count_nl_encodeField s (h s (by simp))
    | cons s2 r3 =>
      simp only [encodeFieldsBody, List.count_append, List.count_cons]
      rw [count_nl_encodeField s (h s (by simp)), ih (fun x hx => h x (by simp [hx]))]
      simp

theorem count_nl_encodeRowChars (r : List String) (h : ∀ s ∈ r, '\n' ∉ s.data) :
    (encodeRowChars r).count '\n' = 1 := by
  simp only [encodeRowChars, List.count_append]
  by_cases hblank : r = [""]
  · simp [hblank]
  · rw [if_neg hblank, count_nl_encodeFieldsBody r h]
    simp

theorem count_nl_serializeCSVChars (headers : List String) (rows : List (List String))
    (h : ∀ r ∈ headers :: rows, ∀ s ∈ r, '\n' ∉ s.data) :
    (serializeCSVChars headers rows).count '\n' = rows.length + 1 := by
  suffices hgen : ∀ rs : List (List String), (∀ r ∈ rs, ∀ s ∈ r, '\n' ∉ s.data) →
      (((rs.map encodeRowChars).flatten).count '\n') = rs.length by
    have := hgen (headers :: rows) h
    simpa [serializeCSVChars] using this
  intro rs hrs
  induction rs with
  | nil => simp
  | cons r rs2 ih =>
    simp only [List.map_cons, List.flatten_cons, List.count_append, List.length_cons]
    rw [count_nl_encodeRowChars r (hrs r (by simp)),
      ih (fun x hx s hs => hrs x (by simp [hx]) s hs)]
    omega

/-- Database-connection accounting used to model the
`with postgres_hook.get_conn() as conn:` block in
`PostgresToS3Operator.execute`: how many connections are currently open,
how many have been obtained in total, and how many transaction commits
and rollbacks have been issued. -/
structure ConnState where
  openConns : Nat
  totalAcquired : Nat
  commits : Nat
  rollbacks : Nat
deriving DecidableEq

/-- Obtaining a connection from the hook (`PostgresHook.get_conn` returns
a raw `psycopg2.connect(...)` connection). -/
def acquireConn (s : ConnState) : ConnState :=
  { s with openConns := s.openConns + 1, totalAcquired := s.totalAcquired + 1 }

/-- `conn.commit()`, as issued by the connection's `__exit__` on a normal
exit.  The connection stays open. -/
def commitTxn (s : ConnState) : ConnState :=
  { s with commits := s.commits + 1 }

/-- `conn.rollback()`, as issued by the connection's `__exit__` on an
exceptional exit.  The connection stays open. -/
def rollbackTxn (s : ConnState) : ConnState :=
  { s with rollbacks := s.rollbacks + 1 }

/-- The `with postgres_hook.get_conn() as conn:` block, with psycopg2's
documented context-manager semantics: entering acquires the connection;
exiting commits the transaction on a normal exit and rolls it back when
the body raises — but it does NOT close the connection, and `execute`
never calls `conn.close()`, so the connection stays open on both exit
paths. -/
def withConn {E A : Type} (body : ConnState → Except E A × ConnState)
    (s : ConnState) : Except E A × ConnState :=
  let p := body (acquireConn s)
  match p.1 with
  | Except.ok _ => (p.1, commitTxn p.2)
  | Except.error _ => (p.1, rollbackTxn p.2)

/-- An S3 bucket/key store: the contents of each object, if present. -/
def S3Store : Type := String → String → Option String

/-- `S3Hook.load_string(string_data, bucket_name, key, replace)`: refuses
to write when the key exists and `replace` is false, otherwise stores the
full string at the key, replacing any previous object. -/
def s3_load_string (store : S3Store) (string_data bucket_name key : String)
    (replace : Bool) : Except String S3Store :=
  if replace = false ∧ (store bucket_name key).isSome = true then
    Except.error "ValueError: The key already exists"
  else
    Except.ok (fun b k => if b = bucket_name ∧ k = key then some string_data else store b k)

/-- `PostgresToS3Operator.execute`: inside the `with` block run the query
and fetch all rows together with the column names from
`cursor.description` (the query may fail, modelled by `Except`); then
serialize the result with `csv.writer` and upload the buffer with
`replace=True`.  Returns the outcome (new store and count of uploaded
rows, or the propagated error) together with the final connection
accounting. -/
def pts3_execute (db : String → Except String (List String × List (List String)))
    (store : S3Store) (query s3_bucket s3_key : String) (s0 : ConnState) :
    Except String (S3Store × Nat) × ConnState :=
  let qres := withConn (fun s => (db query, s)) s0
  match qres.1 with
  | Except.error e => (Except.error e, qres.2)
  | Except.ok (headers, rows) =>
    match s3_load_string store (serializeCSV headers rows) s3_bucket s3_key true with
    | Except.error e => (Except.error e, qres.2)
    | Except.ok store2 => (Except.ok (store2, rows.length), qres.2)

/-- The fixed snapshot-date list `listing_dates` of the DAG. -/
def listing_dates : List String :=
  ["2025-11-07", "2025-10-05", "2025-09-06", "2025-08-04", "2025-07-04", "2025-06-09",
   "2025-05-02", "2025-04-03", "2025-03-02", "2025-02-06", "2025-01-05"]

/-- The templated source URL of `download_csv`. -/
def urlFor (date : String) : String :=
  "https://data.insideairbnb.com/united-states/ny/albany/" ++ date ++ "/visualisations/listings.csv"

/-- The raw scratch file written by `download_csv`. -/
def rawPath (date : String) : String :=
  "/tmp/airbnbdata/listing-" ++ date ++ ".csv"

/-- The normalized scratch file written by `preprocess_csv`. -/
def processedPath (date : String) : String :=
  "/tmp/airbnbdata/listing-" ++ date ++ "-processed.csv"

/-- A completed HTTP response as seen by `requests.get`. -/
structure HttpResponse where
  status_code : Nat
  content : String
deriving DecidableEq

/-- The loop body of `download_csv` over a list of dates.  `requests.get`
either completes with a response (`Except.ok`) or raises a
transport-level exception such as `ConnectionError` (`Except.error`) —
the loop has no try/except, so a raised exception propagates and aborts
the remaining dates.  On a completed response: status 200 writes the body
to the raw path; any other status prints a failure line and the date is
skipped.  Returns the file writes performed and log lines printed before
any abort, the URLs requested (in order), and the escaped exception, if
one was raised. -/
def downloadLoop (http : String → Except String HttpResponse) :
    List String → (List (String × String) × List String × List String) × Option String
  | [] => (([], [], []), none)
  | date :: rest =>
    let url := urlFor date
    match http url with
    | Except.error e => (([], [], [url]), some e)
    | Except.ok response =>
      let acc := downloadLoop http rest
      if response.status_code = 200 then
        (((rawPath date, response.content) :: acc.1.1, acc.1.2.1, url :: acc.1.2.2), acc.2)
      else
        ((acc.1.1, ("faield to download " ++ url) :: acc.1.2.1, url :: acc.1.2.2), acc.2)

/-- `download_csv` of the DAG: the loop over the fixed date list. -/
def download_csv (http : String → Except String HttpResponse) :
    (List (String × String) × List String × List String) × Option String :=
  downloadLoop http listing_dates

/-- Apply a list of file writes to a filesystem, in order. -/
def applyWrites (fs : String → Option String) :
    List (String × String) → String → Option String
  | [] => fs
  | (p, c) :: rest => applyWrites (fun q => if q = p then some c else fs q) rest

/-- The scratch directory before any run. -/
def emptyFs : String → Option String := fun _ => none

/-- The loop body of `preprocess_csv` over a list of dates: open the raw
file unconditionally (a missing file raises and aborts the whole step),
rewrite it through pandas (abstracted as `normalize`), and record the
write of the processed file. -/
def preprocessLoop (normalize : String → String) (fs : String → Option String) :
    List String → Except String (List (String × String))
  | [] => Except.ok []
  | date :: rest =>
    match fs (rawPath date) with
    | none => Except.error ("FileNotFoundError: " ++ rawPath date)
    | some content =>
      (preprocessLoop normalize fs rest).map
        (fun ws => (processedPath date, normalize content) :: ws)

/-- `preprocess_csv` of the DAG: the loop over the fixed date list. -/
def preprocess_csv (normalize : String → String) (fs : String → Option String) :
    Except String (List (String × String)) :=
  preprocessLoop normalize fs listing_dates

/-- A row of the `listings` table: the 18 values supplied by the CSV
`COPY`, plus the two server-default columns `load_date DATE DEFAULT
CURRENT_DATE` and `processed_at TIMESTAMP DEFAULT CURRENT_TIMESTAMP`. -/
structure TableRow where
  values : List String
  load_date : Nat
  processed_at : Nat
deriving DecidableEq

/-- The full column list of the `listings` table created by the
`create_table` task (20 columns). -/
def listings_columns : List String :=
  ["id", "name", "host_id", "host_name", "neighbourhood_group", "neighbourhood",
   "latitude", "longitude", "room_type", "price", "minimum_nights",
   "number_of_reviews", "last_review", "reviews_per_month",
   "calculated_host_listings_count", "availability_365",
   "number_of_reviews_ltm", "license", "load_date", "processed_at"]

/-- The explicit column list of the `COPY listings (...)` statement in
`load_csv_to_postgres` (18 columns). -/
def copy_columns : List String :=
  ["id", "name", "host_id", "host_name", "neighbourhood_group", "neighbourhood",
   "latitude", "longitude", "room_type", "price", "minimum_nights",
   "number_of_reviews", "last_review", "reviews_per_month",
   "calculated_host_listings_count", "availability_365",
   "number_of_reviews_ltm", "license"]

/-- The two columns filled by server defaults, not by the `COPY`. -/
def server_default_columns : List String := ["load_date", "processed_at"]

/-- The rows inserted by one run of `load_csv_to_postgres`: every record
of every processed file, stamped by the server with the current date
(`load_date DEFAULT CURRENT_DATE`) and timestamp (`processed_at DEFAULT
CURRENT_TIMESTAMP`), because the `COPY` column list omits those two
columns. -/
def insertedRows (today now : Nat) (files : List (List (List String))) : List TableRow :=
  files.flatten.map (fun rec => { values := rec, load_date := today, processed_at := now })

/-- `load_csv_to_postgres`: first `DELETE FROM listings WHERE load_date =
CURRENT_DATE`, then `COPY` each processed file into the table. -/
def load_csv_to_postgres (today now : Nat) (files : List (List (List String)))
    (table : List TableRow) : List TableRow :=
  (table.filter (fun r => ! (r.load_date == today))) ++ insertedRows today now files

/-- The number of rows carrying a given load date. -/
def todayRowCount (today : Nat) (table : List TableRow) : Nat :=
  (table.filter (fun r => r.load_date == today)).length

theorem rawPath_inj (a b : String) (h : rawPath a = rawPath b) : a = b := by
  have h2 := congrArg String.data h
  simp only [rawPath, String.data_append] at h2
  exact String.ext (List.append_cancel_left (List.append_cancel_right h2))

theorem downloadLoop_complete (http : String → Except String HttpResponse)
    (ds : List String) (hall : ∀ x ∈ ds, ∃ r, http (urlFor x) = Except.ok r) :
    (downloadLoop http ds).2 = none ∧ (downloadLoop http ds).1.2.2 = ds.map urlFor := by
  induction ds with
  | nil => exact ⟨rfl, rfl⟩
  | cons a rest ih =>
    obtain ⟨r, hr⟩ := hall a (by simp)
    obtain ⟨ih1, ih2⟩ := ih (fun x hx => hall x (by simp [hx]))
    simp only [downloadLoop, hr]
    by_cases h : r.status_code = 200 <;> simp [h, ih1, ih2]

theorem downloadLoop_write_of_ok (http : String → Except String HttpResponse)
    (ds : List String) (d : String) (hd : d ∈ ds)
    (hall : ∀ x ∈ ds, ∃ r, http (urlFor x) = Except.ok r)
    (resp : HttpResponse) (hresp : http (urlFor d) = Except.ok resp)
    (hs : resp.status_code = 200) :
    (rawPath d, resp.content) ∈ (downloadLoop http ds).1.1 := by
  induction ds with
  | nil => cases hd
  | cons a rest ih =>
    obtain ⟨r, hr⟩ := hall a (by simp)
    simp only [downloadLoop, hr]
    rcases List.mem_cons.mp hd with h | h
    · subst h
      rw [hr] at hresp
      injection hresp with he
      subst he
      simp [hs]
    · have ih' := ih h (fun x hx => hall x (by simp [hx]))
      by_cases ha : r.status_code = 200 <;> simp [ha, ih']

theorem downloadLoop_log_of_fail (http : String → Except String HttpResponse)
    (ds : List String) (d : String) (hd : d ∈ ds)
    (hall : ∀ x ∈ ds, ∃ r, http (urlFor x) = Except.ok r)
    (resp : HttpResponse) (hresp : http (urlFor d) = Except.ok resp)
    (hs : ¬ resp.status_code = 200) :
    ("faield to download " ++ urlFor d) ∈ (downloadLoop http ds).1.2.1 := by
  induction ds with
  | nil => cases hd
  | cons a rest ih =>
    obtain ⟨r, hr⟩ := hall a (by simp)
    simp only [downloadLoop, hr]
    rcases List.mem_cons.mp hd with h | h
    · subst h
      rw [hr] at hresp
      injection hresp with he
      subst he
      simp [hs]
    · have ih' := ih h (fun x hx => hall x (by simp [hx]))
      by_cases ha : r.status_code = 200 <;> simp [ha, ih']

theorem downloadLoop_writes_sub (http : String → Except String HttpResponse)
    (ds : List String) (p : String) (c : String) :
    (p, c) ∈ (downloadLoop http ds).1.1 →
      ∃ d ∈ ds, ∃ r, http (urlFor d) = Except.ok r ∧ p = rawPath d ∧
        r.status_code = 200 ∧ c = r.content := by
  induction ds with
  | nil =>
    intro h
    simp [downloadLoop] at h
  | cons a rest ih =>
    intro h
    simp only [downloadLoop] at h
    cases hr : http (urlFor a) with
    | error e =>
      rw [hr] at h
      simp at h
    | ok r =>
      rw [hr] at h
      by_cases ha : r.status_code = 200
      · simp only [if_pos ha, List.mem_cons] at h
        rcases h with h | h
        · rw [Prod.mk.injEq] at h
          exact ⟨a, by simp, r, hr, h.1, ha, h.2⟩
        · obtain ⟨d, hd, hrest⟩ := ih h
          exact ⟨d, by simp [hd], hrest⟩
      · simp only [if_neg ha] at h
        obtain ⟨d, hd, hrest⟩ := ih h
        exact ⟨d, by simp [hd], hrest⟩

theorem applyWrites_not_mem (ws : List (String × String)) :
    ∀ (fs : String → Option String) (p : String), (∀ c, ¬ (p, c) ∈ ws) →
      applyWrites fs ws p = fs p := by
  induction ws with
  | nil =>
    intro fs p _
    rfl
  | cons w rest ih =>
    intro fs p h
    obtain ⟨q, c⟩ := w
    simp only [applyWrites]
    rw [ih _ p (fun c2 hc2 => h c2 (by simp [hc2]))]
    have hpq : ¬ p = q := by
      intro he
      exact h c (by simp [he])
    simp [hpq]

theorem preprocessLoop_error (normalize : String → String) (fs : String → Option String) :
    ∀ (ds : List String) (d : String), d ∈ ds → fs (rawPath d) = none →
      ∃ e, preprocessLoop normalize fs ds = Except.error e := by
  intro ds
  induction ds with
  | nil =>
    intro d hd
    cases hd
  | cons a rest ih =>
    intro d hd hnone
    cases hfa : fs (rawPath a) with
    | none => exact ⟨"FileNotFoundError: " ++ rawPath a, by simp [preprocessLoop, hfa]⟩
    | some c =>
      rcases List.mem_cons.mp hd with h | h
      · subst h
        rw [hfa] at hnone
        cases hnone
      · obtain ⟨e, he⟩ := ih d h hnone
        exact ⟨e, by simp [preprocessLoop, hfa, he, Except.map]⟩

theorem filter_today_load (today now : Nat) (files : List (List (List String)))
    (table : List TableRow) :
    (load_csv_to_postgres today now files table).filter (fun r => r.load_date == today)
      = insertedRows today now files := by
  simp only [load_csv_to_postgres, List.filter_append]
  have h1 : ((table.filter (fun r => ! (r.load_date == today))).filter
      (fun r => r.load_date == today)) = [] := by
    rw [List.filter_filter]
    apply List.filter_eq_nil_iff.mpr
    intro r _
    cases h : r.load_date == today <;> simp [h]
  have h2 : ((insertedRows today now files).filter (fun r => r.load_date == today))
      = insertedRows today now files := by
    apply List.filter_eq_self.mpr
    intro r hr
    simp only [insertedRows, List.mem_map] at hr
    obtain ⟨rec, _, rfl⟩ := hr
    simp
  rw [h1, h2, List.nil_append]

/-- C1 (amended): for every query result with N rows and C columns in
which no value contains a bare carriage return (any value containing CR
also contains a comma, quote or line feed, so that it is quoted), the
exported object consists of exactly N+1 CSV records — the header first —
and every data record has exactly C fields after accounting for quoting.
As literally stated the claim fails for values with a bare carriage
return, which the writer leaves unquoted and a conformant reader treats
as an end-of-record. -/
theorem c1_export_line_and_field_counts (headers : List String)
    (rows : List (List String)) (C : Nat)
    (hcols : ∀ r ∈ rows, r.length = C)
    (hok : ∀ r ∈ headers :: rows, ∀ s ∈ r, fieldOk s) :
    ∃ recs, parseCSV (serializeCSV headers rows) = some recs ∧
      recs.length = rows.length + 1 ∧
      recs.head? = some headers ∧
      ∀ rec ∈ recs.tail, rec.length = C := by
  refine ⟨headers :: rows, parseCSV_serializeCSV headers rows hok, by simp, rfl, ?_⟩
  simpa using hcols

/-- C1 counterexample: one row and one column whose value is `"1\r2"`
serialize to an object whose CSV parse has 3 records, not N+1 = 2. -/
theorem c1_counterexample :
    (parseCSV (serializeCSV ["col"] [["1\r2"]])).map List.length = some 3 ∧
    ¬ (3 : Nat) = 1 + 1 := by
  constructor <;> decide

/-- C1 witness at a concrete 2-row, 2-column result. -/
theorem c1_witness :
    (∀ r ∈ [["1", "x"], ["2", "y"]], r.length = 2) ∧
    (∀ r ∈ ["a", "b"] :: [["1", "x"], ["2", "y"]], ∀ s ∈ r, fieldOk s) ∧
    ∃ recs, parseCSV (serializeCSV ["a", "b"] [["1", "x"], ["2", "y"]]) = some recs ∧
      recs.length = 2 + 1 ∧
      recs.head? = some ["a", "b"] ∧
      ∀ rec ∈ recs.tail, rec.length = 2 :=
  ⟨by decide, by decide,
    c1_export_line_and_field_counts ["a", "b"] [["1", "x"], ["2", "y"]] 2
      (by decide) (by decide)⟩

/-- C2 (amended): for every query result in which no value contains a
bare carriage return, the uploaded bytes, parsed by a conformant CSV
reader, reproduce exactly the original header names and row values.  As
literally stated the claim fails for a value containing a bare carriage
return: the writer leaves it unquoted and the reader does not reproduce
it. -/
theorem c2_roundtrip (headers : List String) (rows : List (List String))
    (hok : ∀ r ∈ headers :: rows, ∀ s ∈ r, fieldOk s) :
    parseCSV (serializeCSV headers rows) = some (headers :: rows) :=
  parseCSV_serializeCSV headers rows hok

/-- C2 counterexample: the value `"b\rc"` is serialized unquoted, and the
conformant reader splits the row at the carriage return instead of
reproducing the value. -/
theorem c2_counterexample :
    parseCSV (serializeCSV ["h"] [["a", "b\rc"]]) = some [["h"], ["a", "b"], ["c"]] ∧
    ¬ (some [["h"], ["a", "b"], ["c"]] = some [["h"], ["a", "b\rc"]]) := by
  constructor <;> decide

/-- C2 witness at the spec's scenario `SELECT 1 AS a, 'x' AS b`. -/
theorem c2_witness :
    (∀ r ∈ ["a", "b"] :: [["1", "x"]], ∀ s ∈ r, fieldOk s) ∧
    serializeCSV ["a", "b"] [["1", "x"]] = "a,b\n1,x\n" ∧
    parseCSV (serializeCSV ["a", "b"] [["1", "x"]]) = some [["a", "b"], ["1", "x"]] :=
  ⟨by decide, by decide, c2_roundtrip ["a", "b"] [["1", "x"]] (by decide)⟩

/-- C3 (amended): a serialized field starts with a quote iff it contains
the delimiter, the quote character, or the line-feed terminator; a field
without those characters is written verbatim; every row carries exactly
one line-feed terminator (when values contain no line feed themselves,
the serialized buffer holds exactly N+1 line feeds).  Exception forced by
the code: a row consisting of a single empty field is written quoted as
`""` although the field contains no special character. -/
theorem c3_minimal_quoting :
    (∀ s : String, (encodeField s).data.head? = some '"' ↔ needsQuote s = true) ∧
    (∀ s : String, needsQuote s = false → encodeField s = s) ∧
    encodeRowChars [""] = ['"', '"', '\n'] ∧
    (∀ r : List String, ¬ r = [""] → encodeRowChars r = encodeFieldsBody r ++ ['\n']) ∧
    (∀ (headers : List String) (rows : List (List String)),
      (∀ r ∈ headers :: rows, ∀ s ∈ r, '\n' ∉ s.data) →
      (serializeCSVChars headers rows).count '\n' = rows.length + 1) := by
  refine ⟨encodeField_head_quote_iff, ?_, by decide, ?_, count_nl_serializeCSVChars⟩
  · intro s h
    simp [encodeField, h]
  · intro r h
    simp [encodeRowChars, h]

/-- C3 counterexample: the empty string contains no delimiter, quote, or
line terminator, yet a row made of that single field is serialized with
the field quoted (`""`), refuting the claimed "only if" direction. -/
theorem c3_counterexample :
    needsQuote "" = false ∧ encodeRow [""] = "\"\"\n" := by
  constructor <;> decide

/-- C3 witness at the spec's scenario: `"New York, NY"` is quoted, a
plain value is not. -/
theorem c3_witness :
    (encodeField "New York, NY").data.head? = some '"' ∧
    encodeField "plain" = "plain" ∧
    (serializeCSVChars ["city"] [["New York, NY"]]).count '\n' = 1 + 1 :=
  ⟨(c3_minimal_quoting.1 "New York, NY").mpr (by decide),
   c3_minimal_quoting.2.1 "plain" (by decide),
   c3_minimal_quoting.2.2.2.2 ["city"] [["New York, NY"]] (by decide)⟩

/-- C4 (amended): a query returning zero rows yields an object that is
exactly the header line (it parses to the single header record); but a
query yielding no columns at all yields an object consisting of a single
line-feed character, not a fully empty object — the header `writerow` of
an empty list still emits the line terminator.  Serialization is total,
so the degenerate cases complete without error. -/
theorem c4_empty_results (headers : List String) (hok : ∀ s ∈ headers, fieldOk s) :
    parseCSV (serializeCSV headers []) = some [headers] ∧
    serializeCSV headers [] = encodeRow headers ∧
    serializeCSV [] [] = "\n" := by
  refine ⟨?_, ?_, by decide⟩
  · exact parseCSV_serializeCSV headers []
      (by
        intro r hr s hs
        simp only [List.mem_singleton] at hr
        subst hr
        exact hok s hs)
  · show String.mk (encodeRowChars headers ++ []) = encodeRow headers
    rw [List.append_nil]
    rfl

/-- C4 counterexample: with zero columns (and zero rows) the exported
object is a single line feed, not a fully empty object. -/
theorem c4_counterexample :
    serializeCSV [] [] = "\n" ∧ ¬ serializeCSV [] [] = "" := by
  constructor <;> decide

/-- C4 witness at a concrete two-column header. -/
theorem c4_witness :
    (∀ s ∈ ["id", "name"], fieldOk s) ∧
    parseCSV (serializeCSV ["id", "name"] []) = some [["id", "name"]] ∧
    serializeCSV [] [] = "\n" :=
  ⟨by decide, (c4_empty_results ["id", "name"] (by decide)).1,
   (c4_empty_results ["id", "name"] (by decide)).2.2⟩

/-- C5 (amended): every invocation of `PostgresToS3Operator.execute`
obtains exactly one database connection, and on every exit path —
including the path where query execution fails — the `with` block only
ends the transaction (one commit on success, one rollback on failure);
the connection is NOT closed and remains held after `execute` returns or
raises, because psycopg2's connection `__exit__` does not close the
connection and `execute` never calls `conn.close()`. -/
theorem c5_transaction_scoping
    (db : String → Except String (List String × List (List String)))
    (store : S3Store) (query bucket key : String) (s0 : ConnState) :
    ((pts3_execute db store query bucket key s0).2.totalAcquired
        = s0.totalAcquired + 1) ∧
    ((pts3_execute db store query bucket key s0).2.openConns
        = s0.openConns + 1) ∧
    ((pts3_execute db store query bucket key s0).2.commits
          + (pts3_execute db store query bucket key s0).2.rollbacks
        = s0.commits + s0.rollbacks + 1) ∧
    (∀ e, db query = Except.error e →
      (pts3_execute db store query bucket key s0).1 = Except.error e ∧
      (pts3_execute db store query bucket key s0).2.rollbacks = s0.rollbacks + 1) := by
  simp only [pts3_execute, withConn]
  cases hdb : db query with
  | error e =>
    simp [acquireConn, commitTxn, rollbackTxn]
    omega
  | ok p =>
    obtain ⟨headers, rows⟩ := p
    cases hs3 : s3_load_string store (serializeCSV headers rows) bucket key true with
    | error e =>
      simp [hs3, acquireConn, commitTxn, rollbackTxn]
      omega
    | ok st =>
      simp [hs3, acquireConn, commitTxn, rollbackTxn]
      omega

/-- C5 counterexample: at a concrete failing query, `execute` propagates
the error and the `with` block has rolled the transaction back, but the
connection is still open afterwards — one connection remains held,
refuting the claimed release on the failure path (the success path
likewise leaves it open). -/
theorem c5_counterexample :
    ((pts3_execute (fun _ => Except.error "connection failed") (fun _ _ => none)
        "q" "b" "k"
        { openConns := 0, totalAcquired := 0, commits := 0, rollbacks := 0 }).2.openConns
      = 1) ∧
    ((pts3_execute (fun _ => Except.ok ([], [])) (fun _ _ => none)
        "q" "b" "k"
        { openConns := 0, totalAcquired := 0, commits := 0, rollbacks := 0 }).2.openConns
      = 1) ∧
    ¬ (1 : Nat) = 0 := by
  refine ⟨rfl, rfl, by decide⟩

/-- C5 witness at a concrete failing query: exactly one acquisition, the
connection left open, one transaction rollback, and the error
propagated. -/
theorem c5_witness :
    ((pts3_execute (fun _ => Except.error "boom") (fun _ _ => none) "q" "b" "k"
        { openConns := 0, totalAcquired := 0, commits := 0, rollbacks := 0 }).2.totalAcquired
      = 0 + 1) ∧
    ((pts3_execute (fun _ => Except.error "boom") (fun _ _ => none) "q" "b" "k"
        { openConns := 0, totalAcquired := 0, commits := 0, rollbacks := 0 }).2.openConns
      = 0 + 1) ∧
    ((pts3_execute (fun _ => Except.error "boom") (fun _ _ => none) "q" "b" "k"
        { openConns := 0, totalAcquired := 0, commits := 0, rollbacks := 0 }).1
      = Except.error "boom") :=
  ⟨(c5_transaction_scoping (fun _ => Except.error "boom") (fun _ _ => none) "q" "b" "k"
      { openConns := 0, totalAcquired := 0, commits := 0, rollbacks := 0 }).1,
   (c5_transaction_scoping (fun _ => Except.error "boom") (fun _ _ => none) "q" "b" "k"
      { openConns := 0, totalAcquired := 0, commits := 0, rollbacks := 0 }).2.1,
   ((c5_transaction_scoping (fun _ => Except.error "boom") (fun _ _ => none) "q" "b" "k"
      { openConns := 0, totalAcquired := 0, commits := 0, rollbacks := 0 }).2.2.2
      "boom" rfl).1⟩

/-- C6: a successful export to a key that already holds an object leaves
at that key exactly the newly serialized buffer — the previous content is
fully replaced, and no other object of the store changes. -/
theorem c6_overwrite (db : String → Except String (List String × List (List String)))
    (store : S3Store) (query bucket key : String) (headers : List String)
    (rows : List (List String)) (old : String) (s0 : ConnState)
    (hdb : db query = Except.ok (headers, rows))
    (hold : store bucket key = some old) :
    ∃ store2 : S3Store,
      (pts3_execute db store query bucket key s0).1
        = Except.ok (store2, rows.length) ∧
      store2 bucket key = some (serializeCSV headers rows) ∧
      ∀ b k, ¬ (b = bucket ∧ k = key) → store2 b k = store b k := by
  refine ⟨fun b k => if b = bucket ∧ k = key then some (serializeCSV headers rows)
      else store b k, ?_, by simp, ?_⟩
  · simp only [pts3_execute, withConn, hdb]
    simp [s3_load_string]
  · intro b k h
    simp [h]

/-- C6 witness at the DAG's bucket and a key that already holds an
object. -/
theorem c6_witness :
    ∃ store2 : S3Store,
      (pts3_execute (fun _ => Except.ok (["a", "b"], [["1", "x"]]))
        (fun b k => if b = "aws-airbnb-s3bucket" ∧ k = "airbnb-test/postgres_data_2025-02-02.csv"
          then some "old contents" else none)
        "SELECT * FROM listings where load_date = CURRENT_DATE"
        "aws-airbnb-s3bucket" "airbnb-test/postgres_data_2025-02-02.csv"
        { openConns := 0, totalAcquired := 0, commits := 0, rollbacks := 0 }).1
        = Except.ok (store2, 1) ∧
      store2 "aws-airbnb-s3bucket" "airbnb-test/postgres_data_2025-02-02.csv"
        = some (serializeCSV ["a", "b"] [["1", "x"]]) ∧
      ∀ b k, ¬ (b = "aws-airbnb-s3bucket" ∧ k = "airbnb-test/postgres_data_2025-02-02.csv") →
        store2 b k = (fun b k => if b = "aws-airbnb-s3bucket" ∧ k = "airbnb-test/postgres_data_2025-02-02.csv"
          then some "old contents" else none : S3Store) b k :=
  c6_overwrite _ _ _ _ _ ["a", "b"] [["1", "x"]] "old contents" _ rfl (by simp)

/-- C7: running the bulk-load step twice on the same calendar day with
the same 11 input files leaves exactly the same number of rows with that
load date as running it once: the second run first purges all rows whose
load date is today and then re-inserts the same file contents. -/
theorem c7_load_idempotent (today now1 now2 : Nat)
    (files : List (List (List String))) (table : List TableRow)
    (h11 : files.length = 11) :
    todayRowCount today (load_csv_to_postgres today now2 files
        (load_csv_to_postgres today now1 files table))
      = todayRowCount today (load_csv_to_postgres today now1 files table) := by
  unfold todayRowCount
  rw [filter_today_load, filter_today_load]
  simp [insertedRows, Function.comp_def, List.length_map]

/-- C7 witness at 11 concrete single-row files over a table already
holding a row with today's load date. -/
theorem c7_witness :
    (List.replicate 11 [["v"]] : List (List (List String))).length = 11 ∧
    todayRowCount 7 (load_csv_to_postgres 7 1 (List.replicate 11 [["v"]])
        (load_csv_to_postgres 7 0 (List.replicate 11 [["v"]])
          [{ values := ["w"], load_date := 7, processed_at := 0 }]))
      = todayRowCount 7 (load_csv_to_postgres 7 0 (List.replicate 11 [["v"]])
          [{ values := ["w"], load_date := 7, processed_at := 0 }]) :=
  ⟨by decide,
    c7_load_idempotent 7 0 1 (List.replicate 11 [["v"]])
      [{ values := ["w"], load_date := 7, processed_at := 0 }] (by decide)⟩

/-- C8: every row inserted by one run of `load_csv_to_postgres` carries
the same server-assigned load date (and timestamp); any row of the
resulting table either survived from before or carries today's load
date; and the explicit `COPY` column list excludes the two server-default
columns `load_date` and `processed_at` — it is exactly the table's column
list minus those two. -/
theorem c8_load_date_invariant (today now : Nat)
    (files : List (List (List String))) (table : List TableRow) :
    (∀ r ∈ insertedRows today now files, r.load_date = today ∧ r.processed_at = now) ∧
    (∀ r ∈ load_csv_to_postgres today now files table, r ∈ table ∨ r.load_date = today) ∧
    ¬ "load_date" ∈ copy_columns ∧ ¬ "processed_at" ∈ copy_columns ∧
    copy_columns = listings_columns.filter (fun c => ! server_default_columns.contains c) := by
  refine ⟨?_, ?_, by decide, by decide, by decide⟩
  · intro r hr
    simp only [insertedRows, List.mem_map] at hr
    obtain ⟨rec, _, rfl⟩ := hr
    exact ⟨rfl, rfl⟩
  · intro r hr
    simp only [load_csv_to_postgres, List.mem_append] at hr
    rcases hr with h | h
    · exact Or.inl (List.mem_of_mem_filter h)
    · right
      simp only [insertedRows, List.mem_map] at h
      obtain ⟨rec, _, rfl⟩ := h
      rfl

/-- C8 witness at a concrete run. -/
theorem c8_witness :
    (∀ r ∈ insertedRows 7 3 [[["x", "y"]]], r.load_date = 7 ∧ r.processed_at = 3) ∧
    ¬ "load_date" ∈ copy_columns :=
  ⟨(c8_load_date_invariant 7 3 [[["x", "y"]]] []).1,
   (c8_load_date_invariant 7 3 [[["x", "y"]]] []).2.2.1⟩

/-- C9 (amended): for every dated snapshot whose HTTP request COMPLETES
with a response, a non-200 status is logged and skipped — no raw file is
written for it, no exception is raised, each URL is requested exactly
once (no retry), and the remaining dates are still fetched.  The fetcher
does NOT tolerate a download that fails by `requests.get` raising a
transport-level exception: the loop has no try/except, so that exception
propagates and aborts the run (the original claim's "for every failed
download, logged and skipped without raising" is refuted by the
counterexample). -/
theorem c9_fetch_tolerance (http : String → Except String HttpResponse) (d : String)
    (hd : d ∈ listing_dates)
    (hall : ∀ x ∈ listing_dates, ∃ r, http (urlFor x) = Except.ok r)
    (resp : HttpResponse) (hresp : http (urlFor d) = Except.ok resp) :
    ((download_csv http).2 = none) ∧
    ((download_csv http).1.2.2 = listing_dates.map urlFor) ∧
    (resp.status_code = 200 →
      (rawPath d, resp.content) ∈ (download_csv http).1.1) ∧
    (¬ resp.status_code = 200 →
      ("faield to download " ++ urlFor d) ∈ (download_csv http).1.2.1 ∧
      ∀ c, ¬ (rawPath d, c) ∈ (download_csv http).1.1) := by
  obtain ⟨hnoexn, hreq⟩ := downloadLoop_complete http listing_dates hall
  refine ⟨hnoexn, hreq,
    fun h => downloadLoop_write_of_ok http listing_dates d hd hall resp hresp h,
    fun h => ⟨downloadLoop_log_of_fail http listing_dates d hd hall resp hresp h, ?_⟩⟩
  intro c hc
  obtain ⟨d2, _, r2, hr2, hp, hs2, _⟩ :=
    downloadLoop_writes_sub http listing_dates (rawPath d) c hc
  cases rawPath_inj d d2 hp
  rw [hresp] at hr2
  injection hr2 with he
  subst he
  exact h hs2

/-- C9 counterexample: when the second date's `requests.get` raises a
`ConnectionError`, the failed download is neither logged nor skipped —
the exception escapes `download_csv`, and the nine remaining dates are
never requested (only the first two URLs were fetched). -/
theorem c9_counterexample :
    ((download_csv (fun u => if u = urlFor "2025-10-05"
        then Except.error "ConnectionError"
        else Except.ok { status_code := 200, content := "x" })).2
      = some "ConnectionError") ∧
    ((download_csv (fun u => if u = urlFor "2025-10-05"
        then Except.error "ConnectionError"
        else Except.ok { status_code := 200, content := "x" })).1.2.1
      = []) ∧
    ((download_csv (fun u => if u = urlFor "2025-10-05"
        then Except.error "ConnectionError"
        else Except.ok { status_code := 200, content := "x" })).1.2.2
      = [urlFor "2025-11-07", urlFor "2025-10-05"]) := by
  refine ⟨?_, ?_, ?_⟩ <;> decide

/-- C9 witness: with a stub where every request completes (200 for the
first date, 404 otherwise), the first date's file is written, a 404 date
is logged and skipped, and nothing raises. -/
theorem c9_witness :
    ((rawPath "2025-11-07", "body")
      ∈ (download_csv (fun u => if u = urlFor "2025-11-07"
          then Except.ok { status_code := 200, content := "body" }
          else Except.ok { status_code := 404, content := "" })).1.1) ∧
    (("faield to download " ++ urlFor "2025-10-05")
      ∈ (download_csv (fun u => if u = urlFor "2025-11-07"
          then Except.ok { status_code := 200, content := "body" }
          else Except.ok { status_code := 404, content := "" })).1.2.1) ∧
    ((download_csv (fun u => if u = urlFor "2025-11-07"
          then Except.ok { status_code := 200, content := "body" }
          else Except.ok { status_code := 404, content := "" })).2 = none) :=
  ⟨(c9_fetch_tolerance _ "2025-11-07" (by decide)
      (fun x _ => if hu : urlFor x = urlFor "2025-11-07"
        then ⟨{ status_code := 200, content := "body" }, by simp [hu]⟩
        else ⟨{ status_code := 404, content := "" }, by simp [hu]⟩)
      { status_code := 200, content := "body" } rfl).2.2.1 (by decide),
   ((c9_fetch_tolerance _ "2025-10-05" (by decide)
      (fun x _ => if hu : urlFor x = urlFor "2025-11-07"
        then ⟨{ status_code := 200, content := "body" }, by simp [hu]⟩
        else ⟨{ status_code := 404, content := "" }, by simp [hu]⟩)
      { status_code := 404, content := "" } rfl).2.2.2 (by decide)).1,
   (c9_fetch_tolerance _ "2025-11-07" (by decide)
      (fun x _ => if hu : urlFor x = urlFor "2025-11-07"
        then ⟨{ status_code := 200, content := "body" }, by simp [hu]⟩
        else ⟨{ status_code := 404, content := "" }, by simp [hu]⟩)
      { status_code := 200, content := "body" } rfl).1⟩

/-- C10 (implicit): if the fetch step skips any date (its download
completed with a non-200 status, so its raw file was never written), then
`preprocess_csv` fails for the entire run, because it unconditionally
opens the raw file of every date in the fixed list. -/
theorem c10_skip_breaks_preprocess (normalize : String → String)
    (http : String → Except String HttpResponse) (d : String)
    (hd : d ∈ listing_dates) (resp : HttpResponse)
    (hresp : http (urlFor d) = Except.ok resp)
    (hfail : ¬ resp.status_code = 200) :
    ∃ e, preprocess_csv normalize (applyWrites emptyFs (download_csv http).1.1)
      = Except.error e := by
  have hnw : ∀ c, ¬ (rawPath d, c) ∈ (download_csv http).1.1 := by
    intro c hc
    obtain ⟨d2, _, r2, hr2, hp, hs2, _⟩ :=
      downloadLoop_writes_sub http listing_dates (rawPath d) c hc
    cases rawPath_inj d d2 hp
    rw [hresp] at hr2
    injection hr2 with he
    subst he
    exact hfail hs2
  have hfs : applyWrites emptyFs (download_csv http).1.1 (rawPath d) = none := by
    rw [applyWrites_not_mem (download_csv http).1.1 emptyFs (rawPath d) hnw]
    rfl
  exact preprocessLoop_error normalize _ listing_dates d hd hfs

/-- C10 witness: when every download completes with a 404 (so every date
is skipped), the normalize step errors. -/
theorem c10_witness :
    ("2025-11-07" ∈ listing_dates) ∧
    ∃ e, preprocess_csv id (applyWrites emptyFs
        (download_csv (fun _ => Except.ok { status_code := 404, content := "" })).1.1)
      = Except.error e :=
  ⟨by decide,
   c10_skip_breaks_preprocess id (fun _ => Except.ok { status_code := 404, content := "" })
     "2025-11-07" (by decide) { status_code := 404, content := "" } rfl (by decide)⟩
